import Mathlib

/-!
Verification development for the core EKF of the ECL estimation library
(src/EKF/ekf.h).  The repository ships only the class header: member
function bodies are not under src/, so operations whose bodies are
missing are modelled from the specification (each such definition says
so in its doc comment).  Inline member functions present in the header
(reset getters, covariance accessors, the state count) are embedded
directly from the source.  Scalars are modelled as exact rationals
(machine floats as ideal field elements); the attitude quaternion path,
whose normalization needs a square root, is modelled over the reals.
-/

namespace EkfSpec

/-- Number of EKF states, `_k_num_states{24}` at src/EKF/ekf.h:266. -/
def k_num_states : Nat := 24

/-- State vector at the delayed time horizon: 24 scalar states. -/
abbrev StateVec := Fin 24 → ℚ

/-- The 24 by 24 state covariance matrix `P` (src/EKF/ekf.h:360). -/
abbrev CovMat := Matrix (Fin 24) (Fin 24) ℚ

/-- Modelled from the spec: the body of `Ekf::makeSymmetrical`
(declared src/EKF/ekf.h:578) is not under src/.  The spec states the
symmetrization applied after every mutating step: P is replaced by
(P + Pᵀ)/2. -/
def makeSymmetrical (P : CovMat) : CovMat :=
  Matrix.of fun i j => (P i j + P j i) / 2

/-- Innovation variance S = H·P·Hᵀ + R for a scalar observation with
Jacobian row H and measurement variance Rv (spec section 4.1; the
fusion kernel bodies are not under src/). -/
def innovVar (P : CovMat) (H : StateVec) (Rv : ℚ) : ℚ :=
  Matrix.dotProduct H (P.mulVec H) + Rv

/-- Innovation consistency test ratio rho = y²/(gate·S) where gate is
the per-sensor gate in squared standard deviations (spec section 4.5;
documented at src/EKF/ekf.h:248-253). -/
def testRatioOf (y gate S : ℚ) : ℚ :=
  y ^ 2 / (gate * S)

/-- Kalman gain column K = P·Hᵀ / S for a scalar observation (spec
section 4.1). -/
def kalmanGain (P : CovMat) (H : StateVec) (S : ℚ) : StateVec :=
  fun i => P.mulVec H i / S

/-- State seen by a fusion kernel: state vector, covariance, and the
timestamp of the last failed innovation check. -/
structure FuseState where
  x : StateVec
  P : CovMat
  timeLastFailUs : Nat

/-- Modelled from the spec: the bodies of the fusion kernels
(`Ekf::fuseVelPosHeight` src/EKF/ekf.h:523 and the other kernels) are
not under src/.  A kernel processes one scalar observation: it computes
S = H·P·Hᵀ + R and the test ratio rho = y²/(gate·S); when rho > 1 it
records the failure timestamp and leaves state and covariance
untouched, otherwise it applies the sequential scalar Kalman update
K = P·Hᵀ/S, X ← X + K·y, P ← (I − K·H)·P followed by symmetrization
(spec sections 4.1 and 4.5). -/
def fuseScalar (H : StateVec) (Rv gate y : ℚ) (t : Nat) (s : FuseState) : FuseState :=
  let S := innovVar s.P H Rv
  if 1 < testRatioOf y gate S then
    { s with timeLastFailUs := t }
  else
    let K := kalmanGain s.P H S
    { x := fun i => s.x i + K i * y
      P := makeSymmetrical ((1 - Matrix.of fun i j => K i * H j) * s.P)
      timeLastFailUs := s.timeLastFailUs }

/-- One scalar observation record fed to the filter: Jacobian row,
observation variance, gate, innovation, and timestamp. -/
structure ObsInput where
  H : StateVec
  Rv : ℚ
  gate : ℚ
  y : ℚ
  t : Nat

/-- Modelled from the spec: `Ekf::update` (src/EKF/ekf.h:58, body not
under src/) runs the fusion kernels sequentially in a fixed order over
the ready observations; a run of the filter folds the scalar fusion
kernel over the observation stream. -/
def runFilter (obs : List ObsInput) (s0 : FuseState) : FuseState :=
  obs.foldl (fun s o => fuseScalar o.H o.Rv o.gate o.y o.t s) s0

/-- Modelled from the spec: each covariance-mutating step of
`Ekf::update` (src/EKF/ekf.h:58, body not under src/) is followed by
the symmetrization P ← (P+Pᵀ)/2, for an arbitrary mutating step. -/
def covMutateStep (mutate : CovMat → CovMat) (P : CovMat) : CovMat :=
  makeSymmetrical (mutate P)

end EkfSpec

namespace EkfSpec

/-- Claim C1: a fusion kernel computes the test ratio rho = y²/(gate·S)
and fuses only when rho ≤ 1; when rho > 1 it records the failure
timestamp and leaves the state vector and the covariance matrix
unchanged. -/
theorem fuseScalar_gate_reject (H : StateVec) (Rv gate y : ℚ) (t : Nat)
    (s : FuseState) (h : 1 < testRatioOf y gate (innovVar s.P H Rv)) :
    (fuseScalar H Rv gate y t s).x = s.x ∧
    (fuseScalar H Rv gate y t s).P = s.P ∧
    (fuseScalar H Rv gate y t s).timeLastFailUs = t := by
  have hres : fuseScalar H Rv gate y t s = { s with timeLastFailUs := t } := by
    unfold fuseScalar
    simp only [h, if_true]
  rw [hres]
  exact ⟨rfl, rfl, rfl⟩

/-- All-ones Jacobian row, used as a concrete observation row. -/
def onesH : StateVec := fun _ => 1

/-- A concrete kernel state: zero state vector, identity covariance. -/
def sampleFuseState : FuseState :=
  { x := fun _ => 0, P := 1, timeLastFailUs := 0 }

/-- The innovation variance of the concrete witness observation:
S = onesH·I·onesHᵀ + 1 = 24 + 1 = 25. -/
theorem sample_innovVar_eq : innovVar sampleFuseState.P onesH 1 = 25 := by
  simp [innovVar, onesH, sampleFuseState, Matrix.dotProduct, Matrix.one_mulVec,
    Finset.sum_const]
  norm_num

/-- Witness for claim C1 at a concrete rejected observation:
y = 10, R = 1, gate = 1 on the identity covariance gives rho = 4 > 1. -/
theorem fuseScalar_gate_reject_witness :
    1 < testRatioOf 10 1 (innovVar sampleFuseState.P onesH 1) ∧
    ((fuseScalar onesH 1 1 10 5 sampleFuseState).x = sampleFuseState.x ∧
     (fuseScalar onesH 1 1 10 5 sampleFuseState).P = sampleFuseState.P ∧
     (fuseScalar onesH 1 1 10 5 sampleFuseState).timeLastFailUs = 5) := by
  have hgate : 1 < testRatioOf 10 1 (innovVar sampleFuseState.P onesH 1) := by
    rw [sample_innovVar_eq]
    norm_num [testRatioOf]
  exact ⟨hgate, fuseScalar_gate_reject onesH 1 1 10 5 sampleFuseState hgate⟩

/-- Claim C3: every step of update() that writes P is followed by the
symmetrization P ← (P+Pᵀ)/2, so after the step the covariance equals
its transpose (exact symmetry, which implies symmetry to any relative
tolerance). -/
theorem covMutateStep_symmetric (mutate : CovMat → CovMat) (P : CovMat) :
    Matrix.transpose (covMutateStep mutate P) = covMutateStep mutate P := by
  ext i j
  simp only [covMutateStep, makeSymmetrical, Matrix.transpose_apply, Matrix.of_apply]
  ring

/-- Claim C7: the filter is deterministic — two runs over identical
observation streams from identical initial configurations produce
identical outputs. -/
theorem runFilter_deterministic (obs1 obs2 : List ObsInput)
    (s1 s2 : FuseState) (hobs : obs1 = obs2) (hs : s1 = s2) :
    runFilter obs1 s1 = runFilter obs2 s2 := by
  rw [hobs, hs]

/-- Witness for claim C7 on a concrete one-observation stream. -/
theorem runFilter_deterministic_witness :
    runFilter [⟨onesH, 1, 1, 10, 5⟩] sampleFuseState =
      runFilter [⟨onesH, 1, 1, 10, 5⟩] sampleFuseState :=
  runFilter_deterministic [⟨onesH, 1, 1, 10, 5⟩] [⟨onesH, 1, 1, 10, 5⟩]
    sampleFuseState sampleFuseState rfl rfl

/-- Modelled from the spec: the attitude quaternion re-normalization
applied after each fusion step inside `Ekf::update` (src/EKF/ekf.h:58,
body not under src/) on the delayed-horizon state `_state`
(src/EKF/ekf.h:284): the quaternion is divided by its Euclidean norm.
The square root forces a model over the reals. -/
noncomputable def quatNormalize (q : Quaternion ℝ) : Quaternion ℝ :=
  ‖q‖⁻¹ • q

/-- Claim C2: after every update the delayed-horizon attitude
quaternion has unit norm — exactly 1 in exact arithmetic, hence within
[1 − 1e-5, 1 + 1e-5] — enforced by the post-fusion re-normalization
(provided the pre-normalization quaternion is nonzero). -/
theorem update_quat_unit_norm (q : Quaternion ℝ) (h : q ≠ 0) :
    ‖quatNormalize q‖ = 1 ∧
    1 - 1e-5 ≤ ‖quatNormalize q‖ ∧ ‖quatNormalize q‖ ≤ 1 + 1e-5 := by
  have hnorm : ‖quatNormalize q‖ = 1 := by
    rw [quatNormalize, norm_smul, norm_inv, norm_norm,
      inv_mul_cancel₀ (norm_ne_zero_iff.mpr h)]
  refine ⟨hnorm, ?_, ?_⟩ <;> rw [hnorm] <;> norm_num

/-- Witness for claim C2 at the identity quaternion. -/
theorem update_quat_unit_norm_witness :
    (1 : Quaternion ℝ) ≠ 0 ∧ ‖quatNormalize 1‖ = 1 :=
  ⟨one_ne_zero, (update_quat_unit_norm 1 one_ne_zero).1⟩

/-- Covariance store of the filter: the matrix member `P`
(src/EKF/ekf.h:360). -/
structure EkfCovStore where
  P : CovMat

/-- `Ekf::covariances` (src/EKF/ekf.h:126): returns the full 24 by 24
covariance matrix. -/
def covariances (e : EkfCovStore) : CovMat := e.P

/-- `Ekf::covariances_diagonal` (src/EKF/ekf.h:129): the diagonal of
the covariance matrix. -/
def covariances_diagonal (e : EkfCovStore) : Fin 24 → ℚ :=
  fun i => covariances e i i

/-- `Ekf::orientation_covariances` (src/EKF/ekf.h:132): the 4 by 4
slice of the covariance matrix at offset (0,0). -/
def orientation_covariances (e : EkfCovStore) : Matrix (Fin 4) (Fin 4) ℚ :=
  Matrix.of fun i j =>
    covariances e (Fin.castLE (by norm_num) i) (Fin.castLE (by norm_num) j)

/-- `Ekf::velocity_covariances` (src/EKF/ekf.h:135): the 3 by 3 slice
of the covariance matrix at offset (4,4). -/
def velocity_covariances (e : EkfCovStore) : Matrix (Fin 3) (Fin 3) ℚ :=
  Matrix.of fun i j =>
    covariances e ⟨4 + i.val, by have := i.isLt; omega⟩
      ⟨4 + j.val, by have := j.isLt; omega⟩

/-- `Ekf::position_covariances` (src/EKF/ekf.h:138): the 3 by 3 slice
of the covariance matrix at offset (7,7). -/
def position_covariances (e : EkfCovStore) : Matrix (Fin 3) (Fin 3) ℚ :=
  Matrix.of fun i j =>
    covariances e ⟨7 + i.val, by have := i.isLt; omega⟩
      ⟨7 + j.val, by have := j.isLt; omega⟩

/-- Claim C8: the state vector has exactly 24 elements and the public
covariance accessors return the blocks of P in the fixed spec ordering:
quaternion block at (0,0) of size 4, velocity block at (4,4) of size 3,
position block at (7,7) of size 3. -/
theorem covariance_accessor_blocks :
    k_num_states = 24 ∧
    (∀ e : EkfCovStore, covariances e = e.P) ∧
    (∀ (e : EkfCovStore) (i j : Fin 4),
      orientation_covariances e i j =
        e.P ⟨i.val, by have := i.isLt; omega⟩ ⟨j.val, by have := j.isLt; omega⟩) ∧
    (∀ (e : EkfCovStore) (i j : Fin 3),
      velocity_covariances e i j =
        e.P ⟨4 + i.val, by have := i.isLt; omega⟩ ⟨4 + j.val, by have := j.isLt; omega⟩) ∧
    (∀ (e : EkfCovStore) (i j : Fin 3),
      position_covariances e i j =
        e.P ⟨7 + i.val, by have := i.isLt; omega⟩ ⟨7 + j.val, by have := j.isLt; omega⟩) :=
  ⟨rfl, fun _ => rfl, fun _ _ _ => rfl, fun _ _ _ => rfl, fun _ _ _ => rfl⟩

/-- The reset event monitoring structure `_state_reset_status`
(src/EKF/ekf.h:268-279): 8-bit counters (modelled as naturals kept
below 256 by the modulus) paired with the delta of the most recent
reset of each group. -/
structure StateResetStatus where
  velNE_counter : Nat
  velD_counter : Nat
  posNE_counter : Nat
  posD_counter : Nat
  quat_counter : Nat
  velNE_change : ℚ × ℚ
  velD_change : ℚ
  posNE_change : ℚ × ℚ
  posD_change : ℚ
  quat_change : Quaternion ℚ

/-- The resettable states of the filter together with the reset event
monitoring structure. -/
structure ResetModelState where
  velN : ℚ
  velE : ℚ
  velD : ℚ
  posN : ℚ
  posE : ℚ
  posD : ℚ
  quat : Quaternion ℚ
  rs : StateResetStatus

/-- Modelled from the spec: the body of `Ekf::resetVelocity`
(src/EKF/ekf.h:526) is not under src/; a horizontal velocity reset
records the delta between old and new state and increments the
matching 8-bit counter (spec section 4.8). -/
def resetVelNE (newN newE : ℚ) (s : ResetModelState) : ResetModelState :=
  { s with
    velN := newN
    velE := newE
    rs := { s.rs with
            velNE_change := (newN - s.velN, newE - s.velE)
            velNE_counter := (s.rs.velNE_counter + 1) % 256 } }

/-- Modelled from the spec: vertical velocity part of
`Ekf::resetVelocity` (src/EKF/ekf.h:526, body not under src/), per
spec section 4.8. -/
def resetVelD (newD : ℚ) (s : ResetModelState) : ResetModelState :=
  { s with
    velD := newD
    rs := { s.rs with
            velD_change := newD - s.velD
            velD_counter := (s.rs.velD_counter + 1) % 256 } }

/-- Modelled from the spec: the body of `Ekf::resetPosition`
(src/EKF/ekf.h:557) is not under src/; per spec section 4.8. -/
def resetPosNE (newN newE : ℚ) (s : ResetModelState) : ResetModelState :=
  { s with
    posN := newN
    posE := newE
    rs := { s.rs with
            posNE_change := (newN - s.posN, newE - s.posE)
            posNE_counter := (s.rs.posNE_counter + 1) % 256 } }

/-- Modelled from the spec: the body of `Ekf::resetHeight`
(src/EKF/ekf.h:560) is not under src/; per spec section 4.8. -/
def resetPosD (newD : ℚ) (s : ResetModelState) : ResetModelState :=
  { s with
    posD := newD
    rs := { s.rs with
            posD_change := newD - s.posD
            posD_counter := (s.rs.posD_counter + 1) % 256 } }

/-- Modelled from the spec: a quaternion reset (performed by
`Ekf::resetMagHeading`, src/EKF/ekf.h:547, body not under src/)
records the multiplicative delta — post-reset quaternion times the
inverse of the pre-reset quaternion, per the `quat_change` doc comment
at src/EKF/ekf.h:278 — and increments the quaternion reset counter. -/
def resetQuat (qNew : Quaternion ℚ) (s : ResetModelState) : ResetModelState :=
  { s with
    quat := qNew
    rs := { s.rs with
            quat_change := qNew * s.quat⁻¹
            quat_counter := (s.rs.quat_counter + 1) % 256 } }

/-- `Ekf::get_posD_reset` (src/EKF/ekf.h:222). -/
def get_posD_reset (s : ResetModelState) : ℚ × Nat :=
  (s.rs.posD_change, s.rs.posD_counter)

/-- `Ekf::get_velD_reset` (src/EKF/ekf.h:225). -/
def get_velD_reset (s : ResetModelState) : ℚ × Nat :=
  (s.rs.velD_change, s.rs.velD_counter)

/-- `Ekf::get_posNE_reset` (src/EKF/ekf.h:228-232). -/
def get_posNE_reset (s : ResetModelState) : (ℚ × ℚ) × Nat :=
  (s.rs.posNE_change, s.rs.posNE_counter)

/-- `Ekf::get_velNE_reset` (src/EKF/ekf.h:235-239). -/
def get_velNE_reset (s : ResetModelState) : (ℚ × ℚ) × Nat :=
  (s.rs.velNE_change, s.rs.velNE_counter)

/-- `Ekf::get_quat_reset` (src/EKF/ekf.h:242-246). -/
def get_quat_reset (s : ResetModelState) : Quaternion ℚ × Nat :=
  (s.rs.quat_change, s.rs.quat_counter)

/-- Claim C4: every reset operation records the delta between old and
new state and increments its 8-bit counter modulo 256 (so counters are
successors of the previous value modulo wrap and always stay below
256), and each reset getter returns the pair of the most recent delta
of its group and the counter. -/
theorem reset_records_delta_and_counter (s : ResetModelState)
    (nVN nVE nVD nPN nPE nPD : ℚ) (qNew : Quaternion ℚ) :
    get_velNE_reset (resetVelNE nVN nVE s) =
      ((nVN - s.velN, nVE - s.velE), (s.rs.velNE_counter + 1) % 256) ∧
    get_velD_reset (resetVelD nVD s) =
      (nVD - s.velD, (s.rs.velD_counter + 1) % 256) ∧
    get_posNE_reset (resetPosNE nPN nPE s) =
      ((nPN - s.posN, nPE - s.posE), (s.rs.posNE_counter + 1) % 256) ∧
    get_posD_reset (resetPosD nPD s) =
      (nPD - s.posD, (s.rs.posD_counter + 1) % 256) ∧
    get_quat_reset (resetQuat qNew s) =
      (qNew * s.quat⁻¹, (s.rs.quat_counter + 1) % 256) ∧
    (resetVelNE nVN nVE s).rs.velNE_counter < 256 ∧
    (resetVelD nVD s).rs.velD_counter < 256 ∧
    (resetPosNE nPN nPE s).rs.posNE_counter < 256 ∧
    (resetPosD nPD s).rs.posD_counter < 256 ∧
    (resetQuat qNew s).rs.quat_counter < 256 :=
  ⟨rfl, rfl, rfl, rfl, rfl,
   by show (s.rs.velNE_counter + 1) % 256 < 256; omega,
   by show (s.rs.velD_counter + 1) % 256 < 256; omega,
   by show (s.rs.posNE_counter + 1) % 256 < 256; omega,
   by show (s.rs.posD_counter + 1) % 256 < 256; omega,
   by show (s.rs.quat_counter + 1) % 256 < 256; omega⟩

/-- Claim C10: the quaternion reset delta reported by get_quat_reset is
multiplicative — the recorded quat_change times the pre-reset attitude
quaternion equals the post-reset attitude quaternion. -/
theorem quat_reset_delta_multiplicative (s : ResetModelState)
    (qNew : Quaternion ℚ) (h : s.quat ≠ 0) :
    (get_quat_reset (resetQuat qNew s)).1 * s.quat = qNew := by
  show qNew * s.quat⁻¹ * s.quat = qNew
  rw [mul_assoc, inv_mul_cancel₀ h, mul_one]

/-- A concrete reset-model state with identity attitude. -/
def sampleResetState : ResetModelState :=
  { velN := 0
    velE := 0
    velD := 0
    posN := 0
    posE := 0
    posD := 0
    quat := 1
    rs := { velNE_counter := 0
            velD_counter := 0
            posNE_counter := 0
            posD_counter := 0
            quat_counter := 0
            velNE_change := (0, 0)
            velD_change := 0
            posNE_change := (0, 0)
            posD_change := 0
            quat_change := 1 } }

/-- Witness for claim C10 at a concrete quaternion reset from the
identity attitude. -/
theorem quat_reset_delta_multiplicative_witness :
    sampleResetState.quat ≠ 0 ∧
    (get_quat_reset (resetQuat ⟨0, 1, 0, 0⟩ sampleResetState)).1 *
      sampleResetState.quat = ⟨0, 1, 0, 0⟩ :=
  ⟨one_ne_zero,
   quat_reset_delta_multiplicative sampleResetState ⟨0, 1, 0, 0⟩ one_ne_zero⟩

/-- Initialisation bookkeeping of the filter: the sample counters
`_hgt_counter` (src/EKF/ekf.h:416) and `_mag_counter`
(src/EKF/ekf.h:418), the origin validity, the `_filter_initialised`
flag (src/EKF/ekf.h:286) and the produced tilt-and-yaw alignment. -/
structure InitState where
  hgt_counter : Nat
  mag_counter : Nat
  origin_valid : Bool
  filter_initialised : Bool
  tilt_yaw_aligned : Bool

/-- Modelled from the spec: the bodies of `Ekf::init`
(src/EKF/ekf.h:55), `Ekf::update` (src/EKF/ekf.h:58) and
`Ekf::initialiseFilter` (src/EKF/ekf.h:482) are not under src/.  Per
the spec, init and update return false while initialisation
prerequisites are missing (insufficient accumulated height and
magnetometer samples, no origin) so the caller can retry, and return
true only once the minimum sample counts have been accumulated, at
which point a tilt-and-yaw alignment is produced and the filter is
marked initialised. -/
def initialiseFilter (minHgtSamples minMagSamples : Nat) (st : InitState) :
    Bool × InitState :=
  if st.hgt_counter < minHgtSamples ∨ st.mag_counter < minMagSamples ∨
      st.origin_valid = false then
    (false, { st with filter_initialised := false })
  else
    (true, { st with
             filter_initialised := true
             tilt_yaw_aligned := true })

/-- Claim C6: with initialisation prerequisites missing (too few height
or magnetometer samples, or no origin) init/update return false and
leave the filter uninitialised with its counters intact so the caller
can retry; they return true exactly when the minimum sample counts have
been accumulated and the origin is valid, and then the filter is
initialised and the tilt-and-yaw alignment has been produced. -/
theorem initialiseFilter_prerequisites (nH nM : Nat) (st : InitState) :
    ((st.hgt_counter < nH ∨ st.mag_counter < nM ∨ st.origin_valid = false) →
      (initialiseFilter nH nM st).1 = false ∧
      (initialiseFilter nH nM st).2.filter_initialised = false ∧
      (initialiseFilter nH nM st).2.hgt_counter = st.hgt_counter ∧
      (initialiseFilter nH nM st).2.mag_counter = st.mag_counter) ∧
    ((initialiseFilter nH nM st).1 = true ↔
      (nH ≤ st.hgt_counter ∧ nM ≤ st.mag_counter ∧ st.origin_valid = true)) ∧
    ((initialiseFilter nH nM st).1 = true →
      (initialiseFilter nH nM st).2.filter_initialised = true ∧
      (initialiseFilter nH nM st).2.tilt_yaw_aligned = true) := by
  by_cases hc : st.hgt_counter < nH ∨ st.mag_counter < nM ∨
      st.origin_valid = false
  · have hres : initialiseFilter nH nM st =
        (false, { st with filter_initialised := false }) := by
      unfold initialiseFilter
      rw [if_pos hc]
    rw [hres]
    refine ⟨fun _ => ⟨rfl, rfl, rfl, rfl⟩, ?_, ?_⟩
    · constructor
      · intro hfalse
        simp at hfalse
      · rintro ⟨h1, h2, h3⟩
        exfalso
        rcases hc with h | h | h
        · omega
        · omega
        · rw [h3] at h
          simp at h
    · intro hfalse
      simp at hfalse
  · have hres : initialiseFilter nH nM st =
        (true, { st with
                 filter_initialised := true
                 tilt_yaw_aligned := true }) := by
      unfold initialiseFilter
      rw [if_neg hc]
    rw [hres]
    push_neg at hc
    refine ⟨fun habs => absurd habs ?_, ?_, fun _ => ⟨rfl, rfl⟩⟩
    · push_neg
      exact hc
    · constructor
      · intro _
        refine ⟨hc.1, hc.2.1, ?_⟩
        cases hv : st.origin_valid
        · exact absurd hv hc.2.2
        · rfl
      · intro _
        rfl

/-- Witness for claim C6: initialisation is rejected with 3 of 10
required height samples, and accepted with 12 height and 8 magnetometer
samples against minima of 10 and 6. -/
theorem initialiseFilter_prerequisites_witness :
    (initialiseFilter 10 6 ⟨3, 2, true, false, false⟩).1 = false ∧
    (initialiseFilter 10 6 ⟨12, 8, true, false, false⟩).1 = true :=
  ⟨((initialiseFilter_prerequisites 10 6 ⟨3, 2, true, false, false⟩).1
      (Or.inl (by decide))).1,
   ((initialiseFilter_prerequisites 10 6 ⟨12, 8, true, false, false⟩).2.1).mpr
     ⟨by decide, by decide, rfl⟩⟩

/-- The IMU bias states and their covariance bookkeeping touched by
`Ekf::reset_imu_bias`: the six delta-angle and delta-velocity bias
states, their variances, and `_last_imu_bias_cov_reset_us`
(src/EKF/ekf.h:337). -/
structure ImuBiasModel where
  bias : Fin 6 → ℚ
  biasVar : Fin 6 → ℚ
  last_imu_bias_cov_reset_us : Nat

/-- Modelled from the spec: the body of `Ekf::reset_imu_bias`
(src/EKF/ekf.h:166) is not under src/; its doc comment
(src/EKF/ekf.h:161-165) states it resets all IMU bias states and
covariances to initial alignment values and returns true if the reset
was performed, false if rejected because less than 10 seconds have
lapsed since the last reset. -/
def reset_imu_bias (t : Nat) (initVar : Fin 6 → ℚ) (st : ImuBiasModel) :
    Bool × ImuBiasModel :=
  if t - st.last_imu_bias_cov_reset_us < 10000000 then
    (false, st)
  else
    (true, { bias := fun _ => 0
             biasVar := initVar
             last_imu_bias_cov_reset_us := t })

/-- Claim C9: reset_imu_bias performs the reset of all IMU bias states
and covariances and returns true only when at least 10 seconds have
elapsed since the previous IMU bias covariance reset; otherwise it
returns false and changes nothing. -/
theorem reset_imu_bias_ten_second_guard (t : Nat) (initVar : Fin 6 → ℚ)
    (st : ImuBiasModel) :
    (t - st.last_imu_bias_cov_reset_us < 10000000 →
      reset_imu_bias t initVar st = (false, st)) ∧
    (10000000 ≤ t - st.last_imu_bias_cov_reset_us →
      reset_imu_bias t initVar st =
        (true, { bias := fun _ => 0
                 biasVar := initVar
                 last_imu_bias_cov_reset_us := t })) := by
  constructor
  · intro h
    unfold reset_imu_bias
    rw [if_pos h]
  · intro h
    unfold reset_imu_bias
    rw [if_neg (Nat.not_lt.mpr h)]

/-- Witness for claim C9: a reset attempt 5 microseconds after the last
reset is rejected without change; one 20 seconds after is performed. -/
theorem reset_imu_bias_ten_second_guard_witness :
    reset_imu_bias 5 (fun _ => 1) ⟨fun _ => 0, fun _ => 1, 0⟩ =
      (false, ⟨fun _ => 0, fun _ => 1, 0⟩) ∧
    reset_imu_bias 20000000 (fun _ => 1) ⟨fun _ => 0, fun _ => 1, 0⟩ =
      (true, { bias := fun _ => 0
               biasVar := fun _ => 1
               last_imu_bias_cov_reset_us := 20000000 }) :=
  ⟨(reset_imu_bias_ten_second_guard 5 (fun _ => 1)
      ⟨fun _ => 0, fun _ => 1, 0⟩).1 (by decide),
   (reset_imu_bias_ten_second_guard 20000000 (fun _ => 1)
      ⟨fun _ => 0, fun _ => 1, 0⟩).2 (by decide)⟩

/-- Partition of the 24 states into the 8 groups of the spec state
table: 0 quaternion (0-3), 1 velocity (4-6), 2 position (7-9),
3 delta-angle bias (10-12), 4 delta-velocity bias (13-15),
5 earth magnetic field (16-18), 6 body magnetic bias (19-21),
7 wind (22-23). -/
def groupOf (i : Fin 24) : Fin 8 :=
  if i.val < 4 then 0
  else if i.val < 7 then 1
  else if i.val < 10 then 2
  else if i.val < 13 then 3
  else if i.val < 16 then 4
  else if i.val < 19 then 5
  else if i.val < 22 then 6
  else 7

/-- Covariance matrix together with the per-group reset counters
touched by the covariance conditioning. -/
structure CovHealthState where
  P : CovMat
  resetCounters : Fin 8 → Nat

/-- Modelled from the spec: step 1 of the covariance conditioning of
`Ekf::fixCovarianceErrors` (src/EKF/ekf.h:575, body not under src/):
diagonal entries below their per-group floor are clamped up to that
floor (spec section 4.4). -/
def clampDiag (floorv : Fin 8 → ℚ) (P : CovMat) : CovMat :=
  Matrix.of fun i j => if i = j then max (P i i) (floorv (groupOf i)) else P i j

/-- A group needs a reset when one of its diagonal entries is NaN (the
NaN flags of the float entries are an input of the exact-arithmetic
model) or exceeds the per-group ceiling (spec section 4.4 step 3). -/
def groupNeedsReset (diagNan : Fin 24 → Bool) (ceilv : Fin 8 → ℚ)
    (P : CovMat) (g : Fin 8) : Prop :=
  ∃ i, groupOf i = g ∧ (diagNan i = true ∨ ceilv g < P i i)

instance (diagNan : Fin 24 → Bool) (ceilv : Fin 8 → ℚ) (P : CovMat) (g : Fin 8) :
    Decidable (groupNeedsReset diagNan ceilv P g) :=
  Fintype.decidableExistsFintype

/-- Modelled from the spec: the body of `Ekf::setDiag`
(src/EKF/ekf.h:667) is not under src/; its doc comment
(src/EKF/ekf.h:665-666) says it zeros the rows and columns of the
given state range and sets the diagonals of the range to the supplied
variance. -/
def setDiagGroup (g : Fin 8) (v : ℚ) (P : CovMat) : CovMat :=
  Matrix.of fun i j =>
    if groupOf i = g ∨ groupOf j = g then (if i = j then v else 0) else P i j

/-- One step of the group-reset cascade: when the group needs a reset
(judged on the conditioned matrix Pchk), zero its rows and columns
against all other states, set its diagonals to the initial variances,
and increment its reset counter modulo 256. -/
def resetStep (diagNan : Fin 24 → Bool) (ceilv initv : Fin 8 → ℚ)
    (Pchk : CovMat) (acc : CovHealthState) (g : Fin 8) : CovHealthState :=
  if groupNeedsReset diagNan ceilv Pchk g then
    { P := setDiagGroup g (initv g) acc.P
      resetCounters := fun g2 =>
        if g2 = g then (acc.resetCounters g2 + 1) % 256
        else acc.resetCounters g2 }
  else acc

/-- Modelled from the spec: the body of `Ekf::fixCovarianceErrors`
(src/EKF/ekf.h:575) is not under src/.  Per spec section 4.4, after
every covariance propagation and after every fusion the filter clamps
diagonal entries below their per-group floor up to the floor,
symmetrizes, and then performs a group reset for every group with a
NaN diagonal or a diagonal above its per-group ceiling, incrementing
the group's reset counter; the filter continues (the conditioning is a
total function). -/
def fixCovarianceErrors (floorv ceilv initv : Fin 8 → ℚ)
    (diagNan : Fin 24 → Bool) (st : CovHealthState) : CovHealthState :=
  let P1 := makeSymmetrical (clampDiag floorv st.P)
  (List.finRange 8).foldl (resetStep diagNan ceilv initv P1)
    { P := P1, resetCounters := st.resetCounters }

/-- The value a group reset writes into entry (i,j) of the covariance:
the initial variance of the row group on the diagonal, zero off it. -/
def resetValue (initv : Fin 8 → ℚ) (i j : Fin 24) : ℚ :=
  if i = j then initv (groupOf i) else 0

theorem resetFold_preserve (diagNan : Fin 24 → Bool) (ceilv initv : Fin 8 → ℚ)
    (Pchk : CovMat) (L : List (Fin 8)) (acc : CovHealthState) (i j : Fin 24)
    (h : acc.P i j = resetValue initv i j) :
    (L.foldl (resetStep diagNan ceilv initv Pchk) acc).P i j =
      resetValue initv i j := by
  induction L generalizing acc with
  | nil => exact h
  | cons a L ih =>
    rw [List.foldl_cons]
    apply ih
    unfold resetStep
    by_cases hna : groupNeedsReset diagNan ceilv Pchk a
    · rw [if_pos hna]
      show setDiagGroup a (initv a) acc.P i j = resetValue initv i j
      unfold setDiagGroup
      rw [Matrix.of_apply]
      by_cases htouch : groupOf i = a ∨ groupOf j = a
      · rw [if_pos htouch]
        unfold resetValue
        by_cases hij : i = j
        · subst hij
          have hga : groupOf i = a := by rcases htouch with h2 | h2 <;> exact h2
          rw [if_pos rfl, if_pos rfl, hga]
        · rw [if_neg hij, if_neg hij]
      · rw [if_neg htouch]
        exact h
    · rw [if_neg hna]
      exact h

theorem resetFold_establish (diagNan : Fin 24 → Bool) (ceilv initv : Fin 8 → ℚ)
    (Pchk : CovMat) (L : List (Fin 8)) (acc : CovHealthState) (i j : Fin 24)
    (g : Fin 8) (hg : g ∈ L)
    (hneeds : groupNeedsReset diagNan ceilv Pchk g)
    (htouch : groupOf i = g ∨ groupOf j = g) :
    (L.foldl (resetStep diagNan ceilv initv Pchk) acc).P i j =
      resetValue initv i j := by
  revert hg
  induction L generalizing acc with
  | nil =>
    intro hg
    exact absurd hg (List.not_mem_nil g)
  | cons a L ih =>
    intro hg
    rw [List.foldl_cons]
    by_cases hcase : groupNeedsReset diagNan ceilv Pchk a ∧
        (groupOf i = a ∨ groupOf j = a)
    · apply resetFold_preserve
      unfold resetStep
      rw [if_pos hcase.1]
      show setDiagGroup a (initv a) acc.P i j = resetValue initv i j
      unfold setDiagGroup
      rw [Matrix.of_apply, if_pos hcase.2]
      unfold resetValue
      by_cases hij : i = j
      · subst hij
        have hga : groupOf i = a := by rcases hcase.2 with h2 | h2 <;> exact h2
        rw [if_pos rfl, if_pos rfl, hga]
      · rw [if_neg hij, if_neg hij]
    · have hgL : g ∈ L := by
        rcases List.mem_cons.mp hg with hga | hgl
        · exact absurd ⟨hga ▸ hneeds, hga ▸ htouch⟩ hcase
        · exact hgl
      exact ih (resetStep diagNan ceilv initv Pchk acc a) hgL

theorem resetFold_untouched (diagNan : Fin 24 → Bool) (ceilv initv : Fin 8 → ℚ)
    (Pchk : CovMat) (L : List (Fin 8)) (acc : CovHealthState) (i j : Fin 24)
    (h : ∀ g ∈ L, ¬(groupNeedsReset diagNan ceilv Pchk g ∧
      (groupOf i = g ∨ groupOf j = g))) :
    (L.foldl (resetStep diagNan ceilv initv Pchk) acc).P i j = acc.P i j := by
  revert h
  induction L generalizing acc with
  | nil =>
    intro _
    rfl
  | cons a L ih =>
    intro h
    rw [List.foldl_cons,
      ih (resetStep diagNan ceilv initv Pchk acc a)
        (fun g hgmem => h g (List.mem_cons_of_mem a hgmem))]
    unfold resetStep
    by_cases hna : groupNeedsReset diagNan ceilv Pchk a
    · rw [if_pos hna]
      show setDiagGroup a (initv a) acc.P i j = acc.P i j
      unfold setDiagGroup
      rw [Matrix.of_apply, if_neg]
      intro htouch
      exact h a (List.mem_cons_self a L) ⟨hna, htouch⟩
    · rw [if_neg hna]

theorem resetFold_counters (diagNan : Fin 24 → Bool) (ceilv initv : Fin 8 → ℚ)
    (Pchk : CovMat) (L : List (Fin 8)) (hnd : L.Nodup) (acc : CovHealthState)
    (g : Fin 8) :
    (L.foldl (resetStep diagNan ceilv initv Pchk) acc).resetCounters g =
      if g ∈ L ∧ groupNeedsReset diagNan ceilv Pchk g then
        (acc.resetCounters g + 1) % 256
      else acc.resetCounters g := by
  revert hnd
  induction L generalizing acc with
  | nil =>
    intro _
    simp
  | cons a L ih =>
    intro hnd
    rcases List.nodup_cons.mp hnd with ⟨ha, hL⟩
    rw [List.foldl_cons, ih (resetStep diagNan ceilv initv Pchk acc a) hL]
    by_cases hga : g = a
    · subst hga
      by_cases hng : groupNeedsReset diagNan ceilv Pchk g
      · simp [resetStep, hng, ha]
      · simp [resetStep, hng, ha]
    · by_cases hna : groupNeedsReset diagNan ceilv Pchk a
      · simp [resetStep, hna, hga, List.mem_cons]
      · simp [resetStep, hna, hga, List.mem_cons]

theorem conditioned_diag (floorv : Fin 8 → ℚ) (P : CovMat) (i : Fin 24) :
    makeSymmetrical (clampDiag floorv P) i i =
      max (P i i) (floorv (groupOf i)) := by
  unfold makeSymmetrical clampDiag
  rw [Matrix.of_apply, Matrix.of_apply, if_pos rfl]
  ring

/-- Claim C5: after the covariance conditioning run after every
propagation and every fusion: all diagonals of P are strictly positive
(entries below their per-group floor having been clamped up to the
floor); every group with a NaN diagonal or a diagonal above its
per-group ceiling is reset — its rows and columns against all other
states zeroed, its diagonals set to the group's initial variance, and
its reset counter incremented (modulo 256) — while groups that need no
reset keep their clamped diagonals and counters; the conditioning is a
total function, so the filter continues running. -/
theorem fixCovarianceErrors_conditioning (floorv ceilv initv : Fin 8 → ℚ)
    (diagNan : Fin 24 → Bool) (st : CovHealthState)
    (hfloor : ∀ g, 0 < floorv g) (hinit : ∀ g, 0 < initv g) :
    (∀ i, 0 < (fixCovarianceErrors floorv ceilv initv diagNan st).P i i) ∧
    (∀ g, groupNeedsReset diagNan ceilv
        (makeSymmetrical (clampDiag floorv st.P)) g →
      (∀ i, groupOf i = g →
        (fixCovarianceErrors floorv ceilv initv diagNan st).P i i = initv g) ∧
      (∀ i j, groupOf i = g → groupOf j ≠ g →
        (fixCovarianceErrors floorv ceilv initv diagNan st).P i j = 0 ∧
        (fixCovarianceErrors floorv ceilv initv diagNan st).P j i = 0) ∧
      (fixCovarianceErrors floorv ceilv initv diagNan st).resetCounters g =
        (st.resetCounters g + 1) % 256) ∧
    (∀ g, ¬groupNeedsReset diagNan ceilv
        (makeSymmetrical (clampDiag floorv st.P)) g →
      (fixCovarianceErrors floorv ceilv initv diagNan st).resetCounters g =
        st.resetCounters g) ∧
    (∀ i, ¬groupNeedsReset diagNan ceilv
        (makeSymmetrical (clampDiag floorv st.P)) (groupOf i) →
      (fixCovarianceErrors floorv ceilv initv diagNan st).P i i =
        max (st.P i i) (floorv (groupOf i))) := by
  have hfix : fixCovarianceErrors floorv ceilv initv diagNan st =
      (List.finRange 8).foldl
        (resetStep diagNan ceilv initv (makeSymmetrical (clampDiag floorv st.P)))
        { P := makeSymmetrical (clampDiag floorv st.P)
          resetCounters := st.resetCounters } := rfl
  have huntouchedDiag : ∀ i, ¬groupNeedsReset diagNan ceilv
      (makeSymmetrical (clampDiag floorv st.P)) (groupOf i) →
      (fixCovarianceErrors floorv ceilv initv diagNan st).P i i =
        max (st.P i i) (floorv (groupOf i)) := by
    intro i hno
    rw [hfix, resetFold_untouched]
    · exact conditioned_diag floorv st.P i
    · intro g _ hbad
      rcases hbad with ⟨hneeds, htouch⟩
      have hgi : groupOf i = g := by rcases htouch with h2 | h2 <;> exact h2
      rw [hgi] at hno
      exact hno hneeds
  refine ⟨?_, ?_, ?_, huntouchedDiag⟩
  · intro i
    by_cases hni : groupNeedsReset diagNan ceilv
        (makeSymmetrical (clampDiag floorv st.P)) (groupOf i)
    · have hval : (fixCovarianceErrors floorv ceilv initv diagNan st).P i i =
          resetValue initv i i := by
        rw [hfix]
        exact resetFold_establish diagNan ceilv initv _ _ _ i i (groupOf i)
          (List.mem_finRange _) hni (Or.inl rfl)
      rw [hval]
      unfold resetValue
      rw [if_pos rfl]
      exact hinit (groupOf i)
    · rw [huntouchedDiag i hni]
      exact lt_max_of_lt_right (hfloor (groupOf i))
  · intro g hg
    refine ⟨?_, ?_, ?_⟩
    · intro i hgi
      have hval : (fixCovarianceErrors floorv ceilv initv diagNan st).P i i =
          resetValue initv i i := by
        rw [hfix]
        exact resetFold_establish diagNan ceilv initv _ _ _ i i g
          (List.mem_finRange _) hg (Or.inl hgi)
      rw [hval]
      unfold resetValue
      rw [if_pos rfl, hgi]
    · intro i j hgi hgj
      have hij : i ≠ j := by
        intro hij
        rw [hij] at hgi
        exact hgj hgi
      constructor
      · have hval : (fixCovarianceErrors floorv ceilv initv diagNan st).P i j =
            resetValue initv i j := by
          rw [hfix]
          exact resetFold_establish diagNan ceilv initv _ _ _ i j g
            (List.mem_finRange _) hg (Or.inl hgi)
        rw [hval]
        unfold resetValue
        rw [if_neg hij]
      · have hval : (fixCovarianceErrors floorv ceilv initv diagNan st).P j i =
            resetValue initv j i := by
          rw [hfix]
          exact resetFold_establish diagNan ceilv initv _ _ _ j i g
            (List.mem_finRange _) hg (Or.inr hgi)
        rw [hval]
        unfold resetValue
        rw [if_neg (Ne.symm hij)]
    · rw [hfix, resetFold_counters diagNan ceilv initv _ _ (List.nodup_finRange 8) _ g,
        if_pos ⟨List.mem_finRange g, hg⟩]
  · intro g hg
    rw [hfix, resetFold_counters diagNan ceilv initv _ _ (List.nodup_finRange 8) _ g,
      if_neg]
    intro hbad
    exact hg hbad.2

/-- A concrete covariance health state: zero covariance, zero counters. -/
def sampleCovHealth : CovHealthState :=
  { P := 0
    resetCounters := fun _ => 0 }

/-- Witness for claim C5 with unit floors, ceilings and initial
variances, no NaN flags, on the zero covariance: all conditioned
diagonals are strictly positive. -/
theorem fixCovarianceErrors_conditioning_witness :
    (∀ _g : Fin 8, (0 : ℚ) < 1) ∧
    (∀ i, 0 < (fixCovarianceErrors (fun _ => 1) (fun _ => 1) (fun _ => 1)
        (fun _ => false) sampleCovHealth).P i i) :=
  ⟨fun _ => by norm_num,
   (fixCovarianceErrors_conditioning (fun _ => 1) (fun _ => 1) (fun _ => 1)
      (fun _ => false) sampleCovHealth
      (fun _ => by norm_num) (fun _ => by norm_num)).1⟩

end EkfSpec
